import Mathlib

/-!
Shallow embedding of the Intcode virtual machine from `src/intcode.rs`
(namespace `Intcode`) and of the duplicated, simpler VM plus amplifier
chain from `src/bin/7.rs` (namespace `Day7`).

Rust `i64` words are modelled as `Int` (the programs under study stay far
from 64-bit overflow, and the source performs no wrapping arithmetic);
Rust `usize` addresses are modelled as `Nat`.  Rust panics
(`unwrap`/`unimplemented!`/index out of bounds/`panic!`) are modelled as
`Except.error` with a dedicated error code.  Rust `%` and `/` on `i64`
truncate toward zero, so they are modelled with `Int.tmod` / `Int.tdiv`.
-/

set_option maxRecDepth 8000
set_option maxHeartbeats 2000000

namespace Intcode

abbrev Word := Int

/-- Error outcomes, one per distinct panic site of `src/intcode.rs`. -/
inductive Err where
  /-- `unimplemented!()` in `RawWords::param` (unknown addressing mode). -/
  | badMode
  /-- `unimplemented!()` in `Intcode::decode` (unknown opcode). -/
  | badOpcode
  /-- `usize::try_from(value).unwrap()` on a negative value. -/
  | negAddress
  /-- `panic!("nonsensical write")` in `Intcode::write`. -/
  | invalidWrite
  /-- scripted I/O asked for more inputs than supplied. -/
  | noInput
  /-- index out of bounds: `self.ram[idx]` with `idx >= len` after any resize. -/
  | oob
  deriving DecidableEq, Repr

/-- `enum Parameter` of `src/intcode.rs`. -/
inductive Parameter where
  | Indirect (address : Nat)
  | Immediate (value : Word)
  deriving DecidableEq, Repr

/-- `enum Instruction` of `src/intcode.rs`. -/
inductive Instruction where
  | Add (op1 op2 dest : Parameter)
  | Multiply (op1 op2 dest : Parameter)
  | Input (dest : Parameter)
  | Output (from_ : Parameter)
  | JumpIfTrue (condition target : Parameter)
  | JumpIfFalse (condition target : Parameter)
  | LessThan (op1 op2 dest : Parameter)
  | Equals (op1 op2 dest : Parameter)
  | RelativeBaseOffset (incr : Parameter)
  | Halt
  deriving DecidableEq, Repr

/-- `struct RawWords` of `src/intcode.rs`. -/
structure RawWords where
  instruction : Word
  param1 : Option Word
  param2 : Option Word
  param3 : Option Word
  relative_base : Word
  deriving DecidableEq, Repr

/-- `RawWords::opcode`: `self.instruction % 100` (Rust `%` = `Int.tmod`). -/
def RawWords.opcode (self : RawWords) : Word :=
  self.instruction.tmod 100

/-- The mode-0 arm of `RawWords::param`:
`Parameter::Indirect { address: usize::try_from(value).unwrap() }`. -/
def RawWords.paramPosition (value : Word) : Except Err Parameter :=
  if 0 ≤ value then Except.ok (Parameter.Indirect value.toNat)
  else Except.error Err.negAddress

/-- `RawWords::param`.  The mode-2 arm of the source recurses as
`self.param(0, value + self.relative_base)`; the recursive call lands in
the mode-0 arm, embedded here as `paramPosition`. -/
def RawWords.param (self : RawWords) (mode : Word) (value : Word) :
    Except Err Parameter :=
  if mode = 0 then RawWords.paramPosition value
  else if mode = 1 then Except.ok (Parameter.Immediate value)
  else if mode = 2 then RawWords.paramPosition (value + self.relative_base)
  else Except.error Err.badMode

/-- `RawWords::param1()`: mode digit `(instruction / 100) % 10`, operand
word `self.param1.unwrap()`. -/
def RawWords.firstParam (self : RawWords) : Except Err Parameter :=
  match self.param1 with
  | none => Except.error Err.oob
  | some value => self.param ((self.instruction.tdiv 100).tmod 10) value

/-- `RawWords::param2()`: mode digit `(instruction / 1000) % 10`. -/
def RawWords.secondParam (self : RawWords) : Except Err Parameter :=
  match self.param2 with
  | none => Except.error Err.oob
  | some value => self.param ((self.instruction.tdiv 1000).tmod 10) value

/-- `RawWords::param3()`: mode digit `(instruction / 10000) % 10`. -/
def RawWords.thirdParam (self : RawWords) : Except Err Parameter :=
  match self.param3 with
  | none => Except.error Err.oob
  | some value => self.param ((self.instruction.tdiv 10000).tmod 10) value

/-- Engine state.  `pc`, `ram`, `relative_base` are the fields of
`struct Intcode`; `inputs`/`outputs` model the scripted binding of the
`IO` trait (`input` pops the next scripted word, `output` appends). -/
structure Machine where
  pc : Nat
  ram : List Word
  relative_base : Word
  inputs : List Word
  outputs : List Word
  deriving DecidableEq, Repr

/-- `Intcode::new`. -/
def Machine.new (ram : List Word) (inputs : List Word) : Machine :=
  { pc := 0, ram := ram, relative_base := 0, inputs := inputs, outputs := [] }

/-- Rust `Vec::resize(new_len, 0)`: truncate when shrinking, pad with
zeros when growing. -/
def resize (v : List Word) (n : Nat) : List Word :=
  if n ≤ v.length then v.take n else v ++ List.replicate (n - v.length) 0

/-- `Intcode::read`: resolve a parameter, growing ram on an
out-of-range indirect access exactly as the source
(`if address >= len { ram.resize(2 * address, 0) }` then index). -/
def readParam (ram : List Word) (p : Parameter) :
    Except Err (Word × List Word) :=
  match p with
  | Parameter.Indirect address =>
    let ram' := if ram.length ≤ address then resize ram (2 * address) else ram
    match ram'[address]? with
    | some v => Except.ok (v, ram')
    | none => Except.error Err.oob
  | Parameter.Immediate value => Except.ok (value, ram)

/-- `Intcode::write`: same growth rule as `read`, then store;
writing through an `Immediate` parameter is the
`panic!("nonsensical write")`. -/
def writeParam (ram : List Word) (p : Parameter) (value : Word) :
    Except Err (List Word) :=
  match p with
  | Parameter.Indirect address =>
    let ram' := if ram.length ≤ address then resize ram (2 * address) else ram
    if address < ram'.length then Except.ok (ram'.set address value)
    else Except.error Err.oob
  | Parameter.Immediate _ => Except.error Err.invalidWrite

/-- `Intcode::fetch`: `ram[pc]` (panic when out of range) plus
`ram.get(pc + k).cloned()` for the three following words. -/
def Machine.fetch (m : Machine) : Except Err RawWords :=
  match m.ram[m.pc]? with
  | none => Except.error Err.oob
  | some instr =>
    Except.ok
      { instruction := instr
        param1 := m.ram[m.pc + 1]?
        param2 := m.ram[m.pc + 2]?
        param3 := m.ram[m.pc + 3]?
        relative_base := m.relative_base }

/-- `Intcode::decode`. -/
def Machine.decode (m : Machine) : Except Err Instruction := do
  let raw ← m.fetch
  if raw.opcode = 1 then
    return Instruction.Add (← raw.firstParam) (← raw.secondParam)
      (← raw.thirdParam)
  else if raw.opcode = 2 then
    return Instruction.Multiply (← raw.firstParam) (← raw.secondParam)
      (← raw.thirdParam)
  else if raw.opcode = 3 then
    return Instruction.Input (← raw.firstParam)
  else if raw.opcode = 4 then
    return Instruction.Output (← raw.firstParam)
  else if raw.opcode = 5 then
    return Instruction.JumpIfTrue (← raw.firstParam) (← raw.secondParam)
  else if raw.opcode = 6 then
    return Instruction.JumpIfFalse (← raw.firstParam) (← raw.secondParam)
  else if raw.opcode = 7 then
    return Instruction.LessThan (← raw.firstParam) (← raw.secondParam)
      (← raw.thirdParam)
  else if raw.opcode = 8 then
    return Instruction.Equals (← raw.firstParam) (← raw.secondParam)
      (← raw.thirdParam)
  else if raw.opcode = 9 then
    return Instruction.RelativeBaseOffset (← raw.firstParam)
  else if raw.opcode = 99 then
    return Instruction.Halt
  else
    Except.error Err.badOpcode

/-- Result of one iteration of the `loop` in `Intcode::run`. -/
inductive StepResult where
  | next (m : Machine)
  | halted (m : Machine)
  deriving DecidableEq, Repr

/-- One iteration of the `loop` in `Intcode::run`: decode, then the arm
for the decoded instruction, with the source's evaluation order
(operand reads happen left to right, before the write). -/
def Machine.step (m : Machine) : Except Err StepResult :=
  match m.decode with
  | Except.error e => Except.error e
  | Except.ok instr =>
    match instr with
    | Instruction.Add op1 op2 dest =>
      match readParam m.ram op1 with
      | Except.error e => Except.error e
      | Except.ok (v1, ram1) =>
        match readParam ram1 op2 with
        | Except.error e => Except.error e
        | Except.ok (v2, ram2) =>
          match writeParam ram2 dest (v1 + v2) with
          | Except.error e => Except.error e
          | Except.ok ram3 =>
            Except.ok (StepResult.next { m with ram := ram3, pc := m.pc + 4 })
    | Instruction.Multiply op1 op2 dest =>
      match readParam m.ram op1 with
      | Except.error e => Except.error e
      | Except.ok (v1, ram1) =>
        match readParam ram1 op2 with
        | Except.error e => Except.error e
        | Except.ok (v2, ram2) =>
          match writeParam ram2 dest (v1 * v2) with
          | Except.error e => Except.error e
          | Except.ok ram3 =>
            Except.ok (StepResult.next { m with ram := ram3, pc := m.pc + 4 })
    | Instruction.Input dest =>
      match m.inputs with
      | [] => Except.error Err.noInput
      | value :: rest =>
        match writeParam m.ram dest value with
        | Except.error e => Except.error e
        | Except.ok ram1 =>
          Except.ok (StepResult.next
            { m with ram := ram1, inputs := rest, pc := m.pc + 2 })
    | Instruction.Output from_ =>
      match readParam m.ram from_ with
      | Except.error e => Except.error e
      | Except.ok (v, ram1) =>
        Except.ok (StepResult.next
          { m with ram := ram1, outputs := m.outputs ++ [v], pc := m.pc + 2 })
    | Instruction.JumpIfTrue condition target =>
      match readParam m.ram condition with
      | Except.error e => Except.error e
      | Except.ok (c, ram1) =>
        if c ≠ 0 then
          match readParam ram1 target with
          | Except.error e => Except.error e
          | Except.ok (t, ram2) =>
            if 0 ≤ t then
              Except.ok (StepResult.next { m with ram := ram2, pc := t.toNat })
            else Except.error Err.negAddress
        else Except.ok (StepResult.next { m with ram := ram1, pc := m.pc + 3 })
    | Instruction.JumpIfFalse condition target =>
      match readParam m.ram condition with
      | Except.error e => Except.error e
      | Except.ok (c, ram1) =>
        if c = 0 then
          match readParam ram1 target with
          | Except.error e => Except.error e
          | Except.ok (t, ram2) =>
            if 0 ≤ t then
              Except.ok (StepResult.next { m with ram := ram2, pc := t.toNat })
            else Except.error Err.negAddress
        else Except.ok (StepResult.next { m with ram := ram1, pc := m.pc + 3 })
    | Instruction.LessThan op1 op2 dest =>
      match readParam m.ram op1 with
      | Except.error e => Except.error e
      | Except.ok (v1, ram1) =>
        match readParam ram1 op2 with
        | Except.error e => Except.error e
        | Except.ok (v2, ram2) =>
          match writeParam ram2 dest (if v1 < v2 then 1 else 0) with
          | Except.error e => Except.error e
          | Except.ok ram3 =>
            Except.ok (StepResult.next { m with ram := ram3, pc := m.pc + 4 })
    | Instruction.Equals op1 op2 dest =>
      match readParam m.ram op1 with
      | Except.error e => Except.error e
      | Except.ok (v1, ram1) =>
        match readParam ram1 op2 with
        | Except.error e => Except.error e
        | Except.ok (v2, ram2) =>
          match writeParam ram2 dest (if v1 = v2 then 1 else 0) with
          | Except.error e => Except.error e
          | Except.ok ram3 =>
            Except.ok (StepResult.next { m with ram := ram3, pc := m.pc + 4 })
    | Instruction.RelativeBaseOffset incr =>
      match readParam m.ram incr with
      | Except.error e => Except.error e
      | Except.ok (v, ram1) =>
        Except.ok (StepResult.next
          { m with ram := ram1, relative_base := m.relative_base + v,
                   pc := m.pc + 2 })
    | Instruction.Halt => Except.ok (StepResult.halted m)

/-- `Intcode::run` with explicit fuel; `Except.ok none` means the fuel
ran out before the program halted. -/
def Machine.run : Nat → Machine → Except Err (Option Machine)
  | 0, _ => Except.ok none
  | fuel + 1, m =>
    match m.step with
    | Except.error e => Except.error e
    | Except.ok (StepResult.halted m') => Except.ok (some m')
    | Except.ok (StepResult.next m') => Machine.run fuel m'

/-- `ram'` extends `ram`: every old cell keeps its value and every new
cell holds zero. -/
def growsOnly (ram ram' : List Word) : Prop :=
  ram.length ≤ ram'.length ∧
  (∀ j, j < ram.length → ram'[j]? = ram[j]?) ∧
  (∀ j, ram.length ≤ j → j < ram'.length → ram'[j]? = some 0)

/-- `ram'` agrees with `ram` everywhere except possibly at index `d`:
every old cell other than `d` keeps its value and every new cell other
than `d` holds zero. -/
def preservesExcept (ram ram' : List Word) (d : Nat) : Prop :=
  ram.length ≤ ram'.length ∧
  (∀ j, j < ram.length → j ≠ d → ram'[j]? = ram[j]?) ∧
  (∀ j, ram.length ≤ j → j < ram'.length → j ≠ d → ram'[j]? = some 0)

/-- The instruction decoded at `m` is one of the five writing
instructions (`Add`, `Multiply`, `Input`, `LessThan`, `Equals`) and its
destination parameter resolved to `Indirect d`. -/
def Machine.writesDest (m : Machine) (d : Nat) : Prop :=
  (∃ a b, m.decode = Except.ok (Instruction.Add a b (Parameter.Indirect d))) ∨
  (∃ a b,
    m.decode = Except.ok (Instruction.Multiply a b (Parameter.Indirect d))) ∨
  m.decode = Except.ok (Instruction.Input (Parameter.Indirect d)) ∨
  (∃ a b,
    m.decode = Except.ok (Instruction.LessThan a b (Parameter.Indirect d))) ∨
  (∃ a b,
    m.decode = Except.ok (Instruction.Equals a b (Parameter.Indirect d)))

end Intcode

/-!
Embedding of the duplicated VM in `src/bin/7.rs`: same instruction set
minus opcode 9 and addressing mode 2 (no relative base), `read`/`write`
index ram directly with no grow-on-demand, and the scripted input
closure of `main` (`returns[calls - 1]`, panicking past the end).
-/

namespace Day7

open Intcode (Err Word)

/-- `enum Parameter` of `src/bin/7.rs`. -/
inductive Parameter where
  | Indirect (address : Nat)
  | Immediate (value : Word)
  deriving DecidableEq, Repr

/-- `enum Instruction` of `src/bin/7.rs` (no `RelativeBaseOffset`). -/
inductive Instruction where
  | Add (op1 op2 dest : Parameter)
  | Multiply (op1 op2 dest : Parameter)
  | Input (dest : Parameter)
  | Output (from_ : Parameter)
  | JumpIfTrue (condition target : Parameter)
  | JumpIfFalse (condition target : Parameter)
  | LessThan (op1 op2 dest : Parameter)
  | Equals (op1 op2 dest : Parameter)
  | Halt
  deriving DecidableEq, Repr

/-- `struct RawWords` of `src/bin/7.rs` (no `relative_base`). -/
structure RawWords where
  instruction : Word
  param1 : Option Word
  param2 : Option Word
  param3 : Option Word
  deriving DecidableEq, Repr

/-- `RawWords::opcode` of `src/bin/7.rs`. -/
def RawWords.opcode (self : RawWords) : Word :=
  self.instruction.tmod 100

/-- `RawWords::param` of `src/bin/7.rs`: modes 0 and 1 only. -/
def RawWords.param (mode : Word) (value : Word) : Except Err Parameter :=
  if mode = 0 then
    if 0 ≤ value then Except.ok (Parameter.Indirect value.toNat)
    else Except.error Err.negAddress
  else if mode = 1 then Except.ok (Parameter.Immediate value)
  else Except.error Err.badMode

/-- `RawWords::param1()` of `src/bin/7.rs`. -/
def RawWords.firstParam (self : RawWords) : Except Err Parameter :=
  match self.param1 with
  | none => Except.error Err.oob
  | some value => RawWords.param ((self.instruction.tdiv 100).tmod 10) value

/-- `RawWords::param2()` of `src/bin/7.rs`. -/
def RawWords.secondParam (self : RawWords) : Except Err Parameter :=
  match self.param2 with
  | none => Except.error Err.oob
  | some value => RawWords.param ((self.instruction.tdiv 1000).tmod 10) value

/-- `RawWords::param3()` of `src/bin/7.rs`. -/
def RawWords.thirdParam (self : RawWords) : Except Err Parameter :=
  match self.param3 with
  | none => Except.error Err.oob
  | some value => RawWords.param ((self.instruction.tdiv 10000).tmod 10) value

/-- Engine state of `src/bin/7.rs` with the scripted I/O closures of
`main`'s `answer1` modelled as lists. -/
structure Machine where
  pc : Nat
  ram : List Word
  inputs : List Word
  outputs : List Word
  deriving DecidableEq, Repr

/-- `Intcode::new` of `src/bin/7.rs`. -/
def Machine.new (ram : List Word) (inputs : List Word) : Machine :=
  { pc := 0, ram := ram, inputs := inputs, outputs := [] }

/-- `Intcode::read` of `src/bin/7.rs`: plain index, panics out of range. -/
def read (ram : List Word) (p : Parameter) : Except Err Word :=
  match p with
  | Parameter.Indirect address =>
    match ram[address]? with
    | some v => Except.ok v
    | none => Except.error Err.oob
  | Parameter.Immediate value => Except.ok value

/-- `Intcode::write` of `src/bin/7.rs`: plain index, panics out of range
or on an `Immediate` destination. -/
def write (ram : List Word) (p : Parameter) (value : Word) :
    Except Err (List Word) :=
  match p with
  | Parameter.Indirect address =>
    if address < ram.length then Except.ok (ram.set address value)
    else Except.error Err.oob
  | Parameter.Immediate _ => Except.error Err.invalidWrite

/-- `Intcode::fetch` of `src/bin/7.rs`. -/
def Machine.fetch (m : Machine) : Except Err RawWords :=
  match m.ram[m.pc]? with
  | none => Except.error Err.oob
  | some instr =>
    Except.ok
      { instruction := instr
        param1 := m.ram[m.pc + 1]?
        param2 := m.ram[m.pc + 2]?
        param3 := m.ram[m.pc + 3]? }

/-- `Intcode::decode` of `src/bin/7.rs`. -/
def Machine.decode (m : Machine) : Except Err Instruction := do
  let raw ← m.fetch
  if raw.opcode = 1 then
    return Instruction.Add (← raw.firstParam) (← raw.secondParam)
      (← raw.thirdParam)
  else if raw.opcode = 2 then
    return Instruction.Multiply (← raw.firstParam) (← raw.secondParam)
      (← raw.thirdParam)
  else if raw.opcode = 3 then
    return Instruction.Input (← raw.firstParam)
  else if raw.opcode = 4 then
    return Instruction.Output (← raw.firstParam)
  else if raw.opcode = 5 then
    return Instruction.JumpIfTrue (← raw.firstParam) (← raw.secondParam)
  else if raw.opcode = 6 then
    return Instruction.JumpIfFalse (← raw.firstParam) (← raw.secondParam)
  else if raw.opcode = 7 then
    return Instruction.LessThan (← raw.firstParam) (← raw.secondParam)
      (← raw.thirdParam)
  else if raw.opcode = 8 then
    return Instruction.Equals (← raw.firstParam) (← raw.secondParam)
      (← raw.thirdParam)
  else if raw.opcode = 99 then
    return Instruction.Halt
  else
    Except.error Err.badOpcode

/-- Result of one iteration of the `loop` in `Intcode::run`. -/
inductive StepResult where
  | next (m : Machine)
  | halted (m : Machine)
  deriving DecidableEq, Repr

/-- One iteration of the `loop` of `Intcode::run` in `src/bin/7.rs`. -/
def Machine.step (m : Machine) : Except Err StepResult := do
  match ← m.decode with
  | Instruction.Add op1 op2 dest =>
    let v1 ← read m.ram op1
    let v2 ← read m.ram op2
    let ram1 ← write m.ram dest (v1 + v2)
    return StepResult.next { m with ram := ram1, pc := m.pc + 4 }
  | Instruction.Multiply op1 op2 dest =>
    let v1 ← read m.ram op1
    let v2 ← read m.ram op2
    let ram1 ← write m.ram dest (v1 * v2)
    return StepResult.next { m with ram := ram1, pc := m.pc + 4 }
  | Instruction.Input dest =>
    match m.inputs with
    | [] => Except.error Err.noInput
    | value :: rest =>
      let ram1 ← write m.ram dest value
      return StepResult.next
        { m with ram := ram1, inputs := rest, pc := m.pc + 2 }
  | Instruction.Output from_ =>
    let v ← read m.ram from_
    return StepResult.next
      { m with outputs := m.outputs ++ [v], pc := m.pc + 2 }
  | Instruction.JumpIfTrue condition target =>
    let c ← read m.ram condition
    if c ≠ 0 then
      let t ← read m.ram target
      if 0 ≤ t then return StepResult.next { m with pc := t.toNat }
      else Except.error Err.negAddress
    else return StepResult.next { m with pc := m.pc + 3 }
  | Instruction.JumpIfFalse condition target =>
    let c ← read m.ram condition
    if c = 0 then
      let t ← read m.ram target
      if 0 ≤ t then return StepResult.next { m with pc := t.toNat }
      else Except.error Err.negAddress
    else return StepResult.next { m with pc := m.pc + 3 }
  | Instruction.LessThan op1 op2 dest =>
    let v1 ← read m.ram op1
    let v2 ← read m.ram op2
    let ram1 ← write m.ram dest (if v1 < v2 then 1 else 0)
    return StepResult.next { m with ram := ram1, pc := m.pc + 4 }
  | Instruction.Equals op1 op2 dest =>
    let v1 ← read m.ram op1
    let v2 ← read m.ram op2
    let ram1 ← write m.ram dest (if v1 = v2 then 1 else 0)
    return StepResult.next { m with ram := ram1, pc := m.pc + 4 }
  | Instruction.Halt => return StepResult.halted m

/-- `Intcode::run` of `src/bin/7.rs`, with fuel (`Except.ok none` means
the fuel ran out before a halt). -/
def Machine.run : Nat → Machine → Except Err (Option Machine)
  | 0, _ => Except.ok none
  | fuel + 1, m =>
    match m.step with
    | Except.error e => Except.error e
    | Except.ok (StepResult.halted m') => Except.ok (some m')
    | Except.ok (StepResult.next m') => Machine.run fuel m'

/-- One iteration of the `for phase in &phases` loop of `answer1`: run a
fresh engine on `prog` with scripted inputs `[phase, signal]`; each
emitted value overwrites `signal`, so the pass yields the last output,
or the incoming `signal` when nothing was emitted. -/
def ampPass (prog : List Word) (fuel : Nat) (signal phase : Word) :
    Except Err (Option Word) :=
  match Machine.run fuel (Machine.new prog [phase, signal]) with
  | Except.error e => Except.error e
  | Except.ok none => Except.ok none
  | Except.ok (some m) => Except.ok (some (m.outputs.getLast?.getD signal))

/-- The whole `for phase in &phases` loop of `answer1`: fold `ampPass`
over the phase list, starting from signal `0` at the first engine. -/
def chainSignal (prog : List Word) (fuel : Nat) :
    List Word → Word → Except Err (Option Word)
  | [], signal => Except.ok (some signal)
  | phase :: rest, signal =>
    match ampPass prog fuel signal phase with
    | Except.error e => Except.error e
    | Except.ok none => Except.ok none
    | Except.ok (some signal') => chainSignal prog fuel rest signal'

/-- All ways to insert `x` into a list (helper for `perms`). -/
def insertions (x : Word) : List Word → List (List Word)
  | [] => [[x]]
  | y :: ys => (x :: y :: ys) :: (insertions x ys).map (fun l => y :: l)

/-- All permutations of a list, mirroring
`itertools::Itertools::permutations(5)` over the 5 phase values. -/
def perms : List Word → List (List Word)
  | [] => [[]]
  | x :: xs => (perms xs).flatMap (insertions x)

/-- The `answer1` chain result for every permutation of `phaseSet`. -/
def chainResults (prog : List Word) (fuel : Nat) (phaseSet : List Word) :
    List (Except Err (Option Word)) :=
  (perms phaseSet).map (fun p => chainSignal prog fuel p 0)

/-- The day-7 example program from the spec (§8, linear chain). -/
def exampleProg : List Word :=
  [3, 15, 3, 16, 1002, 16, 10, 16, 1, 16, 15, 15, 4, 15, 99, 0, 0]

end Day7

/-!  Supporting lemmas about memory growth in `src/intcode.rs`.  -/

namespace Intcode

theorem resize_eq_append (ram : List Word) (n : Nat) (h : ram.length ≤ n) :
    resize ram n = ram ++ List.replicate (n - ram.length) 0 := by
  unfold resize
  by_cases hn : n ≤ ram.length
  · have heq : n = ram.length := le_antisymm hn h
    subst heq
    simp
  · simp [hn]

theorem resize_length (ram : List Word) (n : Nat) (h : ram.length ≤ n) :
    (resize ram n).length = n := by
  rw [resize_eq_append ram n h]
  simp [Nat.add_sub_cancel' h]

theorem resize_getElem_lt (ram : List Word) (n j : Nat) (h : ram.length ≤ n)
    (hj : j < ram.length) : (resize ram n)[j]? = ram[j]? := by
  rw [resize_eq_append ram n h, List.getElem?_append_left hj]

theorem resize_getElem_ge (ram : List Word) (n j : Nat) (hj : ram.length ≤ j)
    (hjn : j < n) : (resize ram n)[j]? = some 0 := by
  rw [resize_eq_append ram n (le_trans hj (le_of_lt hjn)),
    List.getElem?_append_right hj, List.getElem?_replicate,
    if_pos (by omega : j - ram.length < n - ram.length)]

theorem growsOnly_refl (ram : List Word) : growsOnly ram ram :=
  ⟨le_refl _, fun _ _ => rfl, fun j hj hj' => absurd hj' (by omega)⟩

theorem growsOnly_preservesExcept {ram ram' : List Word}
    (h : growsOnly ram ram') (d : Nat) : preservesExcept ram ram' d :=
  ⟨h.1, fun j hj _ => h.2.1 j hj, fun j hj hj' _ => h.2.2 j hj hj'⟩

theorem preservesExcept_trans {r1 r2 r3 : List Word} {d : Nat}
    (h12 : preservesExcept r1 r2 d) (h23 : preservesExcept r2 r3 d) :
    preservesExcept r1 r3 d := by
  obtain ⟨hl12, ha12, hz12⟩ := h12
  obtain ⟨hl23, ha23, hz23⟩ := h23
  refine ⟨le_trans hl12 hl23, ?_, ?_⟩
  · intro j hj hd
    rw [ha23 j (lt_of_lt_of_le hj hl12) hd, ha12 j hj hd]
  · intro j hj1 hj3 hd
    by_cases hj2 : j < r2.length
    · rw [ha23 j hj2 hd, hz12 j hj1 hj2 hd]
    · exact hz23 j (le_of_not_lt hj2) hj3 hd

theorem readParam_growsOnly {ram : List Word} {p : Parameter} {v : Word}
    {ram' : List Word} (h : readParam ram p = Except.ok (v, ram')) :
    growsOnly ram ram' := by
  cases p with
  | Immediate value =>
    simp only [readParam, Except.ok.injEq, Prod.mk.injEq] at h
    rw [← h.2]
    exact growsOnly_refl ram
  | Indirect address =>
    by_cases hlen : ram.length ≤ address
    · simp only [readParam, if_pos hlen] at h
      rcases Nat.lt_or_ge ram.length (2 * address) with hlt | hge
      · cases hget : (resize ram (2 * address))[address]? with
        | none => rw [hget] at h; cases h
        | some w =>
          rw [hget] at h
          simp only [Except.ok.injEq, Prod.mk.injEq] at h
          rw [← h.2]
          exact ⟨le_of_lt (by rw [resize_length ram _ (le_of_lt hlt)]; exact hlt),
            fun j hj => resize_getElem_lt ram _ j (le_of_lt hlt) hj,
            fun j hj hj' =>
              resize_getElem_ge ram _ j hj
                (by rwa [resize_length ram _ (le_of_lt hlt)] at hj')⟩
      · have haddr : address = 0 := by omega
        have hram : ram.length = 0 := by omega
        subst haddr
        have : (resize ram 0)[0]? = none := by
          apply List.getElem?_eq_none
          simp [resize, hram]
        rw [this] at h
        cases h
    · simp only [readParam, if_neg hlen] at h
      cases hget : ram[address]? with
      | none => rw [hget] at h; cases h
      | some w =>
        rw [hget] at h
        simp only [Except.ok.injEq, Prod.mk.injEq] at h
        rw [← h.2]
        exact growsOnly_refl ram

theorem writeParam_preservesExcept {ram : List Word} {d : Nat} {value : Word}
    {ram' : List Word}
    (h : writeParam ram (Parameter.Indirect d) value = Except.ok ram') :
    preservesExcept ram ram' d ∧ ram'[d]? = some value := by
  by_cases hlen : ram.length ≤ d
  · simp only [writeParam, if_pos hlen] at h
    rcases Nat.lt_or_ge ram.length (2 * d) with hlt | hge
    · have hres : (resize ram (2 * d)).length = 2 * d :=
        resize_length ram _ (le_of_lt hlt)
      have hd2 : d < (resize ram (2 * d)).length := by omega
      rw [if_pos hd2] at h
      simp only [Except.ok.injEq] at h
      rw [← h]
      refine ⟨⟨?_, ?_, ?_⟩, ?_⟩
      · rw [List.length_set, hres]; omega
      · intro j hj hne
        rw [List.getElem?_set_ne (Ne.symm hne),
          resize_getElem_lt ram _ j (le_of_lt hlt) hj]
      · intro j hj hj' hne
        rw [List.getElem?_set_ne (Ne.symm hne),
          resize_getElem_ge ram _ j hj (by rwa [List.length_set, hres] at hj')]
      · rw [List.getElem?_set_self hd2]
    · have hd0 : d = 0 := by omega
      have hram : ram.length = 0 := by omega
      subst hd0
      have : ¬ (0 < (resize ram 0).length) := by
        simp [resize, hram]
      rw [if_neg this] at h
      cases h
  · have hd : d < ram.length := lt_of_not_le hlen
    simp only [writeParam, if_neg hlen] at h
    rw [if_pos (by rwa [] : d < ram.length)] at h
    simp only [Except.ok.injEq] at h
    rw [← h]
    refine ⟨⟨?_, ?_, ?_⟩, ?_⟩
    · rw [List.length_set]
    · intro j hj hne
      rw [List.getElem?_set_ne (Ne.symm hne)]
    · intro j hj hj' hne
      rw [List.length_set] at hj'
      omega
    · rw [List.getElem?_set_self hd]

/-!  Claim theorems.  -/

/-- **C1** (counterexample to the original claim).  In `src/intcode.rs`,
an `Indirect 0` access on an empty memory resizes to `2 * 0 = 0`
elements and then panics on the still-out-of-range index — so an
out-of-range access can fail — and a successful growth reaches exactly
`2 * i` elements, short of the claimed `2 * i + 1`. -/
theorem c1_counterexample :
    readParam ([] : List Word) (Parameter.Indirect 0) =
      Except.error Err.oob ∧
    writeParam ([] : List Word) (Parameter.Indirect 0) 7 =
      Except.error Err.oob ∧
    writeParam ([0] : List Word) (Parameter.Indirect 1) 5 =
      Except.ok [0, 5] ∧
    ¬ 2 * 1 + 1 ≤ (writeParam ([0] : List Word) (Parameter.Indirect 1) 5).toOption.elim 0 List.length := by
  refine ⟨rfl, rfl, rfl, by decide⟩

/-- **C1** (amended).  A read or write through `Indirect i` with `i` at
or beyond the current memory length first resizes memory to exactly
`2 * i` elements, preserving old cells and zero-filling new ones, and
then succeeds for every `i ≥ 1` (the read yields `0`); the sole failing
out-of-range case is `i = 0` on an empty memory. -/
theorem c1_growth (ram : List Word) (i : Nat) (value : Word)
    (hlen : ram.length ≤ i) (hpos : 1 ≤ i) :
    readParam ram (Parameter.Indirect i) =
      Except.ok (0, resize ram (2 * i)) ∧
    writeParam ram (Parameter.Indirect i) value =
      Except.ok ((resize ram (2 * i)).set i value) ∧
    (resize ram (2 * i)).length = 2 * i ∧
    (∀ j, j < ram.length → (resize ram (2 * i))[j]? = ram[j]?) ∧
    (∀ j, ram.length ≤ j → j < 2 * i → (resize ram (2 * i))[j]? = some 0) := by
  have h2 : ram.length < 2 * i := by omega
  have hi2 : i < 2 * i := by omega
  refine ⟨?_, ?_, resize_length ram _ (le_of_lt h2),
    fun j hj => resize_getElem_lt ram _ j (le_of_lt h2) hj,
    fun j hj hj2 => resize_getElem_ge ram _ j hj hj2⟩
  · simp only [readParam, if_pos hlen]
    rw [resize_getElem_ge ram _ i hlen hi2]
  · simp only [writeParam, if_pos hlen]
    rw [if_pos (by rw [resize_length ram _ (le_of_lt h2)]; exact hi2)]

/-- Witness for `c1_growth` at `ram = []`, `i = 1`. -/
theorem c1_growth_witness :
    ([] : List Word).length ≤ 1 ∧ 1 ≤ 1 ∧
    readParam ([] : List Word) (Parameter.Indirect 1) =
      Except.ok (0, resize [] 2) :=
  ⟨by decide, le_refl 1, (c1_growth [] 1 7 (by decide) (le_refl 1)).1⟩

/-- **C2**: decoding splits an instruction word `w ≥ 0` as opcode
`w % 100` and the addressing mode of operand `k` (k = 1, 2, 3) as the
decimal digit of `w` at the `10 ^ (k + 1)` place; mode 0 yields
`Indirect value`, mode 1 yields `Immediate value`, and mode 2 adds
`relative_base` to the operand value and resolves it as mode 0, yielding
`Indirect (value + relative_base)`. -/
theorem c2_decode_fields (raw : RawWords) (v w1 w2 w3 : Word)
    (hw : 0 ≤ raw.instruction) (hv : 0 ≤ v)
    (hvr : 0 ≤ v + raw.relative_base) :
    raw.opcode = raw.instruction % 100 ∧
    raw.param 0 v = Except.ok (Parameter.Indirect v.toNat) ∧
    raw.param 1 v = Except.ok (Parameter.Immediate v) ∧
    raw.param 2 v = raw.param 0 (v + raw.relative_base) ∧
    raw.param 2 v =
      Except.ok (Parameter.Indirect (v + raw.relative_base).toNat) ∧
    (raw.param1 = some w1 →
      raw.firstParam = raw.param ((raw.instruction / 10 ^ 2) % 10) w1) ∧
    (raw.param2 = some w2 →
      raw.secondParam = raw.param ((raw.instruction / 10 ^ 3) % 10) w2) ∧
    (raw.param3 = some w3 →
      raw.thirdParam = raw.param ((raw.instruction / 10 ^ 4) % 10) w3) := by
  have hq2 : (0:Int) ≤ raw.instruction / 100 := Int.ediv_nonneg hw (by norm_num)
  have hq3 : (0:Int) ≤ raw.instruction / 1000 :=
    Int.ediv_nonneg hw (by norm_num)
  have hq4 : (0:Int) ≤ raw.instruction / 10000 :=
    Int.ediv_nonneg hw (by norm_num)
  refine ⟨?_, ?_, ?_, ?_, ?_, ?_, ?_, ?_⟩
  · unfold RawWords.opcode
    rw [Int.tmod_eq_emod hw (by norm_num)]
  · simp [RawWords.param, RawWords.paramPosition, hv]
  · simp [RawWords.param]
  · simp [RawWords.param]
  · simp [RawWords.param, RawWords.paramPosition, hvr]
  · intro h1
    unfold RawWords.firstParam
    rw [h1, Int.tdiv_eq_ediv hw (by norm_num),
      Int.tmod_eq_emod hq2 (by norm_num)]
    norm_num
  · intro h2
    unfold RawWords.secondParam
    rw [h2, Int.tdiv_eq_ediv hw (by norm_num),
      Int.tmod_eq_emod hq3 (by norm_num)]
    norm_num
  · intro h3
    unfold RawWords.thirdParam
    rw [h3, Int.tdiv_eq_ediv hw (by norm_num),
      Int.tmod_eq_emod hq4 (by norm_num)]
    norm_num

/-- Witness for `c2_decode_fields` on the word `1002` with relative
base `0` and operand value `4`. -/
theorem c2_witness :
    (0:Int) ≤ 1002 ∧
    RawWords.param ⟨1002, some 4, some 3, some 4, 0⟩ 2 4 =
      Except.ok (Parameter.Indirect 4) :=
  ⟨by decide,
    (c2_decode_fields ⟨1002, some 4, some 3, some 4, 0⟩ 4 4 3 4 (by decide)
      (by decide) (by decide)).2.2.2.2.1⟩

/-- **C3**: running the engine on `[1002, 4, 3, 4, 33]` with any
scripted input stream halts (the `run` loop returns only after decoding
`Halt`), leaves `99` at address 4, emits no output and consumes no
input. -/
theorem c3_example_program (inputs : List Word) :
    ∃ m : Machine,
      Machine.run 10 (Machine.new [1002, 4, 3, 4, 33] inputs) =
        Except.ok (some m) ∧
      m.ram[4]? = some 99 ∧ m.outputs = [] ∧ m.inputs = inputs :=
  ⟨{ pc := 4, ram := [1002, 4, 3, 4, 99], relative_base := 0,
     inputs := inputs, outputs := [] }, rfl, rfl, rfl, rfl⟩

/-- Witness for `c3_example_program` at the empty input stream. -/
theorem c3_witness :
    ∃ m : Machine,
      Machine.run 10 (Machine.new [1002, 4, 3, 4, 33] []) =
        Except.ok (some m) ∧
      m.ram[4]? = some 99 ∧ m.outputs = [] ∧ m.inputs = [] :=
  c3_example_program []

/-- **C8**: `decode` (and the underlying `fetch`) is a pure function of
`(ram, pc, relative_base)`: two states agreeing on those three fields
decode to identical instructions — in particular decoding twice without
executing yields identical results — and decoding returns only an
instruction, never a modified state. -/
theorem c8_decode_pure (m1 m2 : Machine) (h1 : m1.ram = m2.ram)
    (h2 : m1.pc = m2.pc) (h3 : m1.relative_base = m2.relative_base) :
    m1.fetch = m2.fetch ∧ m1.decode = m2.decode := by
  have hf : m1.fetch = m2.fetch := by
    unfold Machine.fetch
    rw [h1, h2, h3]
  exact ⟨hf, by unfold Machine.decode; rw [hf]⟩

/-- Witness for `c8_decode_pure`: two states sharing memory, pc and
relative base but with different I/O decode identically. -/
theorem c8_witness :
    ({ pc := 0, ram := [99], relative_base := 0, inputs := [1],
       outputs := [] } : Machine).decode =
      ({ pc := 0, ram := [99], relative_base := 0, inputs := [2, 3],
         outputs := [5] } : Machine).decode :=
  (c8_decode_pure _ _ rfl rfl rfl).2

/-- **C5**: a `JumpIfTrue` whose resolved condition is nonzero, and a
`JumpIfFalse` whose resolved condition is zero, set the program counter
to the resolved target *value* itself (no further memory dereference);
otherwise the program counter advances by exactly 3. -/
theorem c5_jumps (m : Machine) (cond tgt : Parameter) (c : Word)
    (ram1 : List Word) :
    (m.decode = Except.ok (Instruction.JumpIfTrue cond tgt) →
      readParam m.ram cond = Except.ok (c, ram1) →
      ((c ≠ 0 → ∀ t ram2, readParam ram1 tgt = Except.ok (t, ram2) →
          0 ≤ t →
          m.step = Except.ok (StepResult.next
            { m with ram := ram2, pc := t.toNat })) ∧
        (c = 0 → m.step = Except.ok (StepResult.next
            { m with ram := ram1, pc := m.pc + 3 })))) ∧
    (m.decode = Except.ok (Instruction.JumpIfFalse cond tgt) →
      readParam m.ram cond = Except.ok (c, ram1) →
      ((c = 0 → ∀ t ram2, readParam ram1 tgt = Except.ok (t, ram2) →
          0 ≤ t →
          m.step = Except.ok (StepResult.next
            { m with ram := ram2, pc := t.toNat })) ∧
        (c ≠ 0 → m.step = Except.ok (StepResult.next
            { m with ram := ram1, pc := m.pc + 3 })))) := by
  constructor
  · intro hd hc
    constructor
    · intro hne t ram2 ht hpos
      simp [Machine.step, hd, hc, hne, ht, hpos]
    · intro hz
      subst hz
      simp [Machine.step, hd, hc]
  · intro hd hc
    constructor
    · intro hz t ram2 ht hpos
      subst hz
      simp [Machine.step, hd, hc, ht, hpos]
    · intro hne
      simp [Machine.step, hd, hc, hne]

/-- Witness for `c5_jumps`: a taken `JumpIfTrue` jumps to the resolved
immediate target `7`; an untaken `JumpIfFalse` advances the pc by 3. -/
theorem c5_witness :
    (Machine.new [1105, 1, 7] []).step =
      Except.ok (StepResult.next
        { pc := 7, ram := [1105, 1, 7], relative_base := 0, inputs := [],
          outputs := [] }) ∧
    (Machine.new [1106, 1, 7] []).step =
      Except.ok (StepResult.next
        { pc := 3, ram := [1106, 1, 7], relative_base := 0, inputs := [],
          outputs := [] }) := by
  constructor
  · exact ((c5_jumps (Machine.new [1105, 1, 7] []) (Parameter.Immediate 1)
      (Parameter.Immediate 7) 1 [1105, 1, 7]).1 rfl rfl).1 (by decide) 7
      [1105, 1, 7] rfl (by decide)
  · exact ((c5_jumps (Machine.new [1106, 1, 7] []) (Parameter.Immediate 1)
      (Parameter.Immediate 7) 1 [1106, 1, 7]).2 rfl rfl).2 (by decide)

/-- **C6**: writing through an `Immediate` destination is fatal: `write`
itself refuses (it returns an error and no memory, so memory is not
modified), and a step whose decoded `Add`, `Multiply`, `Input`,
`LessThan` or `Equals` has an `Immediate` destination aborts the engine
with an error instead of producing a successor state. -/
theorem c6_immediate_write (m : Machine) (ram : List Word)
    (op1 op2 : Parameter) (v value : Word) :
    writeParam ram (Parameter.Immediate v) value =
      Except.error Err.invalidWrite ∧
    (m.decode = Except.ok (Instruction.Add op1 op2 (Parameter.Immediate v)) →
      ∃ e, m.step = Except.error e) ∧
    (m.decode =
        Except.ok (Instruction.Multiply op1 op2 (Parameter.Immediate v)) →
      ∃ e, m.step = Except.error e) ∧
    (m.decode = Except.ok (Instruction.Input (Parameter.Immediate v)) →
      ∃ e, m.step = Except.error e) ∧
    (m.decode =
        Except.ok (Instruction.LessThan op1 op2 (Parameter.Immediate v)) →
      ∃ e, m.step = Except.error e) ∧
    (m.decode =
        Except.ok (Instruction.Equals op1 op2 (Parameter.Immediate v)) →
      ∃ e, m.step = Except.error e) := by
  refine ⟨rfl, ?_, ?_, ?_, ?_, ?_⟩
  · intro hd
    cases h1 : readParam m.ram op1 with
    | error e => exact ⟨e, by simp [Machine.step, hd, h1]⟩
    | ok pr1 =>
      obtain ⟨v1, ram1⟩ := pr1
      cases h2 : readParam ram1 op2 with
      | error e => exact ⟨e, by simp [Machine.step, hd, h1, h2]⟩
      | ok pr2 =>
        obtain ⟨v2, ram2⟩ := pr2
        exact ⟨Err.invalidWrite,
          by simp [Machine.step, hd, h1, h2, writeParam]⟩
  · intro hd
    cases h1 : readParam m.ram op1 with
    | error e => exact ⟨e, by simp [Machine.step, hd, h1]⟩
    | ok pr1 =>
      obtain ⟨v1, ram1⟩ := pr1
      cases h2 : readParam ram1 op2 with
      | error e => exact ⟨e, by simp [Machine.step, hd, h1, h2]⟩
      | ok pr2 =>
        obtain ⟨v2, ram2⟩ := pr2
        exact ⟨Err.invalidWrite,
          by simp [Machine.step, hd, h1, h2, writeParam]⟩
  · intro hd
    cases hi : m.inputs with
    | nil => exact ⟨Err.noInput, by simp [Machine.step, hd, hi]⟩
    | cons x rest =>
      exact ⟨Err.invalidWrite, by simp [Machine.step, hd, hi, writeParam]⟩
  · intro hd
    cases h1 : readParam m.ram op1 with
    | error e => exact ⟨e, by simp [Machine.step, hd, h1]⟩
    | ok pr1 =>
      obtain ⟨v1, ram1⟩ := pr1
      cases h2 : readParam ram1 op2 with
      | error e => exact ⟨e, by simp [Machine.step, hd, h1, h2]⟩
      | ok pr2 =>
        obtain ⟨v2, ram2⟩ := pr2
        exact ⟨Err.invalidWrite,
          by simp [Machine.step, hd, h1, h2, writeParam]⟩
  · intro hd
    cases h1 : readParam m.ram op1 with
    | error e => exact ⟨e, by simp [Machine.step, hd, h1]⟩
    | ok pr1 =>
      obtain ⟨v1, ram1⟩ := pr1
      cases h2 : readParam ram1 op2 with
      | error e => exact ⟨e, by simp [Machine.step, hd, h1, h2]⟩
      | ok pr2 =>
        obtain ⟨v2, ram2⟩ := pr2
        exact ⟨Err.invalidWrite,
          by simp [Machine.step, hd, h1, h2, writeParam]⟩

/-- Witness for `c6_immediate_write`: the program `[11101, 2, 3, 5]`
decodes to an `Add` with immediate destination `5`, and its step
aborts. -/
theorem c6_witness :
    writeParam ([] : List Word) (Parameter.Immediate 5) 7 =
      Except.error Err.invalidWrite ∧
    ∃ e, (Machine.new [11101, 2, 3, 5] []).step = Except.error e := by
  have h := c6_immediate_write (Machine.new [11101, 2, 3, 5] []) []
    (Parameter.Immediate 2) (Parameter.Immediate 3) 5 7
  exact ⟨h.1, h.2.1 rfl⟩

/-- **C7**: an addressing-mode digit other than 0, 1, 2 makes `param`
fail with the fatal decode error; an opcode outside `{1,…,9,99}` makes
`decode` fail with the fatal decode error; and any decode error aborts
the step and terminates `run` immediately with that error, so execution
never proceeds past the malformed instruction. -/
theorem c7_decode_errors (raw : RawWords) (m : Machine) (mode v : Word) :
    (mode ≠ 0 → mode ≠ 1 → mode ≠ 2 →
      raw.param mode v = Except.error Err.badMode) ∧
    (∀ r, m.fetch = Except.ok r →
      r.opcode ∉ ([1, 2, 3, 4, 5, 6, 7, 8, 9, 99] : List Word) →
      m.decode = Except.error Err.badOpcode) ∧
    (∀ e, m.decode = Except.error e →
      m.step = Except.error e ∧
      ∀ fuel, Machine.run (fuel + 1) m = Except.error e) := by
  refine ⟨?_, ?_, ?_⟩
  · intro h0 h1 h2
    simp [RawWords.param, h0, h1, h2]
  · intro r hf hop
    simp only [List.mem_cons, List.not_mem_nil, or_false, not_or] at hop
    obtain ⟨n1, n2, n3, n4, n5, n6, n7, n8, n9, n99⟩ := hop
    simp [Machine.decode, hf, bind, Except.bind, n1, n2, n3, n4, n5, n6, n7,
      n8, n9, n99]
  · intro e hd
    have hs : m.step = Except.error e := by simp [Machine.step, hd]
    exact ⟨hs, fun fuel => by simp [Machine.run, hs]⟩

/-- Witness for `c7_decode_errors`: mode digit 3 is a fatal mode error;
opcode 55 is a fatal opcode error that also aborts `step` and `run`. -/
theorem c7_witness :
    RawWords.param ⟨0, none, none, none, 0⟩ 3 0 =
      Except.error Err.badMode ∧
    (Machine.new [55] []).decode = Except.error Err.badOpcode ∧
    Machine.run 1 (Machine.new [55] []) = Except.error Err.badOpcode := by
  have h := c7_decode_errors ⟨0, none, none, none, 0⟩ (Machine.new [55] []) 3 0
  have hdec : (Machine.new [55] []).decode = Except.error Err.badOpcode :=
    h.2.1 ⟨55, none, none, none, 0⟩ rfl (by decide)
  exact ⟨h.1 (by decide) (by decide) (by decide), hdec,
    (h.2.2 Err.badOpcode hdec).2 0⟩

/-- **C9**: negative addresses abort the engine: a position-mode operand
with negative value, or a relative-mode operand whose value plus
`relative_base` is negative, makes parameter resolution fail fatally,
and a taken `JumpIfTrue`/`JumpIfFalse` whose resolved target value is
negative aborts the step.  (Addresses in the embedding are naturals
produced only after these checks, so no negative address ever reaches
memory.) -/
theorem c9_negative_addresses (raw : RawWords) (m : Machine) (v : Word)
    (cond tgt : Parameter) (c t : Word) (ram1 ram2 : List Word) :
    (v < 0 → raw.param 0 v = Except.error Err.negAddress) ∧
    (v + raw.relative_base < 0 →
      raw.param 2 v = Except.error Err.negAddress) ∧
    (m.decode = Except.ok (Instruction.JumpIfTrue cond tgt) →
      readParam m.ram cond = Except.ok (c, ram1) → c ≠ 0 →
      readParam ram1 tgt = Except.ok (t, ram2) → t < 0 →
      m.step = Except.error Err.negAddress) ∧
    (m.decode = Except.ok (Instruction.JumpIfFalse cond tgt) →
      readParam m.ram cond = Except.ok (c, ram1) → c = 0 →
      readParam ram1 tgt = Except.ok (t, ram2) → t < 0 →
      m.step = Except.error Err.negAddress) := by
  refine ⟨?_, ?_, ?_, ?_⟩
  · intro hv
    simp [RawWords.param, RawWords.paramPosition, not_le.mpr hv]
  · intro hv
    simp [RawWords.param, RawWords.paramPosition, not_le.mpr hv]
  · intro hd hc hne ht hneg
    simp [Machine.step, hd, hc, hne, ht, not_le.mpr hneg]
  · intro hd hc hz ht hneg
    subst hz
    simp [Machine.step, hd, hc, ht, not_le.mpr hneg]

/-- Witness for `c9_negative_addresses`: position mode on `-1`, relative
mode on `3` with relative base `-5`, and a taken jump to `-9` all fail
with the negative-address error. -/
theorem c9_witness :
    RawWords.param ⟨0, none, none, none, 0⟩ 0 (-1) =
      Except.error Err.negAddress ∧
    RawWords.param ⟨0, none, none, none, -5⟩ 2 3 =
      Except.error Err.negAddress ∧
    (Machine.new [1105, 1, -9] []).step = Except.error Err.negAddress := by
  have h := c9_negative_addresses ⟨0, none, none, none, 0⟩
    (Machine.new [1105, 1, -9] []) (-1) (Parameter.Immediate 1)
    (Parameter.Immediate (-9)) 1 (-9) [1105, 1, -9] [1105, 1, -9]
  refine ⟨h.1 (by decide), ?_, h.2.2.1 rfl rfl (by decide) rfl (by decide)⟩
  exact (c9_negative_addresses ⟨0, none, none, none, -5⟩ (Machine.new [] [])
    3 (Parameter.Immediate 0) (Parameter.Immediate 0) 0 0 [] []).2.1
    (by decide)

/-- **C10**: a successful step of a writing instruction (`Add`,
`Multiply`, `Input`, `LessThan`, `Equals`) whose destination resolved to
address `d` modifies at most cell `d`: memory never shrinks, every other
pre-existing cell keeps its value, any cell created by growth (other
than `d`) is zero; and every instruction except `RelativeBaseOffset`
leaves `relative_base` unchanged. -/
theorem c10_frame (m m' : Machine) (d : Nat)
    (hstep : m.step = Except.ok (StepResult.next m')) :
    (m.writesDest d →
      m.ram.length ≤ m'.ram.length ∧
      (∀ j, j < m.ram.length → j ≠ d → m'.ram[j]? = m.ram[j]?) ∧
      (∀ j, m.ram.length ≤ j → j < m'.ram.length → j ≠ d →
        m'.ram[j]? = some 0)) ∧
    ((∀ p, m.decode ≠ Except.ok (Instruction.RelativeBaseOffset p)) →
      m'.relative_base = m.relative_base) := by
  constructor
  · intro hw
    unfold Machine.writesDest at hw
    have hpres : preservesExcept m.ram m'.ram d := by
      rcases hw with ⟨a, b, hd⟩ | ⟨a, b, hd⟩ | hd | ⟨a, b, hd⟩ | ⟨a, b, hd⟩
      · simp only [Machine.step, hd] at hstep
        cases h1 : readParam m.ram a with
        | error e => simp [h1] at hstep
        | ok pr1 =>
          obtain ⟨v1, ram1⟩ := pr1
          simp only [h1] at hstep
          cases h2 : readParam ram1 b with
          | error e => simp [h2] at hstep
          | ok pr2 =>
            obtain ⟨v2, ram2⟩ := pr2
            simp only [h2] at hstep
            cases h3 : writeParam ram2 (Parameter.Indirect d) (v1 + v2) with
            | error e => simp [h3] at hstep
            | ok ram3 =>
              simp only [h3, Except.ok.injEq, StepResult.next.injEq] at hstep
              have hram : m'.ram = ram3 := by rw [← hstep]
              rw [hram]
              exact preservesExcept_trans
                (growsOnly_preservesExcept (readParam_growsOnly h1) d)
                (preservesExcept_trans
                  (growsOnly_preservesExcept (readParam_growsOnly h2) d)
                  (writeParam_preservesExcept h3).1)
      · simp only [Machine.step, hd] at hstep
        cases h1 : readParam m.ram a with
        | error e => simp [h1] at hstep
        | ok pr1 =>
          obtain ⟨v1, ram1⟩ := pr1
          simp only [h1] at hstep
          cases h2 : readParam ram1 b with
          | error e => simp [h2] at hstep
          | ok pr2 =>
            obtain ⟨v2, ram2⟩ := pr2
            simp only [h2] at hstep
            cases h3 : writeParam ram2 (Parameter.Indirect d) (v1 * v2) with
            | error e => simp [h3] at hstep
            | ok ram3 =>
              simp only [h3, Except.ok.injEq, StepResult.next.injEq] at hstep
              have hram : m'.ram = ram3 := by rw [← hstep]
              rw [hram]
              exact preservesExcept_trans
                (growsOnly_preservesExcept (readParam_growsOnly h1) d)
                (preservesExcept_trans
                  (growsOnly_preservesExcept (readParam_growsOnly h2) d)
                  (writeParam_preservesExcept h3).1)
      · simp only [Machine.step, hd] at hstep
        cases hi : m.inputs with
        | nil => simp [hi] at hstep
        | cons x rest =>
          simp only [hi] at hstep
          cases h3 : writeParam m.ram (Parameter.Indirect d) x with
          | error e => simp [h3] at hstep
          | ok ram3 =>
            simp only [h3, Except.ok.injEq, StepResult.next.injEq] at hstep
            have hram : m'.ram = ram3 := by rw [← hstep]
            rw [hram]
            exact (writeParam_preservesExcept h3).1
      · simp only [Machine.step, hd] at hstep
        cases h1 : readParam m.ram a with
        | error e => simp [h1] at hstep
        | ok pr1 =>
          obtain ⟨v1, ram1⟩ := pr1
          simp only [h1] at hstep
          cases h2 : readParam ram1 b with
          | error e => simp [h2] at hstep
          | ok pr2 =>
            obtain ⟨v2, ram2⟩ := pr2
            simp only [h2] at hstep
            cases h3 : writeParam ram2 (Parameter.Indirect d)
                (if v1 < v2 then 1 else 0) with
            | error e => simp [h3] at hstep
            | ok ram3 =>
              simp only [h3, Except.ok.injEq, StepResult.next.injEq] at hstep
              have hram : m'.ram = ram3 := by rw [← hstep]
              rw [hram]
              exact preservesExcept_trans
                (growsOnly_preservesExcept (readParam_growsOnly h1) d)
                (preservesExcept_trans
                  (growsOnly_preservesExcept (readParam_growsOnly h2) d)
                  (writeParam_preservesExcept h3).1)
      · simp only [Machine.step, hd] at hstep
        cases h1 : readParam m.ram a with
        | error e => simp [h1] at hstep
        | ok pr1 =>
          obtain ⟨v1, ram1⟩ := pr1
          simp only [h1] at hstep
          cases h2 : readParam ram1 b with
          | error e => simp [h2] at hstep
          | ok pr2 =>
            obtain ⟨v2, ram2⟩ := pr2
            simp only [h2] at hstep
            cases h3 : writeParam ram2 (Parameter.Indirect d)
                (if v1 = v2 then 1 else 0) with
            | error e => simp [h3] at hstep
            | ok ram3 =>
              simp only [h3, Except.ok.injEq, StepResult.next.injEq] at hstep
              have hram : m'.ram = ram3 := by rw [← hstep]
              rw [hram]
              exact preservesExcept_trans
                (growsOnly_preservesExcept (readParam_growsOnly h1) d)
                (preservesExcept_trans
                  (growsOnly_preservesExcept (readParam_growsOnly h2) d)
                  (writeParam_preservesExcept h3).1)
    exact hpres
  · intro hnot
    cases hdec : m.decode with
    | error e => simp [Machine.step, hdec] at hstep
    | ok instr =>
      cases instr with
      | RelativeBaseOffset p => exact absurd hdec (hnot p)
      | Halt => simp [Machine.step, hdec] at hstep
      | Add op1 op2 dest =>
        simp only [Machine.step, hdec] at hstep
        cases h1 : readParam m.ram op1 with
        | error e => simp [h1] at hstep
        | ok pr1 =>
          obtain ⟨v1, ram1⟩ := pr1
          simp only [h1] at hstep
          cases h2 : readParam ram1 op2 with
          | error e => simp [h2] at hstep
          | ok pr2 =>
            obtain ⟨v2, ram2⟩ := pr2
            simp only [h2] at hstep
            cases h3 : writeParam ram2 dest (v1 + v2) with
            | error e => simp [h3] at hstep
            | ok ram3 =>
              simp only [h3, Except.ok.injEq, StepResult.next.injEq] at hstep
              rw [← hstep]
      | Multiply op1 op2 dest =>
        simp only [Machine.step, hdec] at hstep
        cases h1 : readParam m.ram op1 with
        | error e => simp [h1] at hstep
        | ok pr1 =>
          obtain ⟨v1, ram1⟩ := pr1
          simp only [h1] at hstep
          cases h2 : readParam ram1 op2 with
          | error e => simp [h2] at hstep
          | ok pr2 =>
            obtain ⟨v2, ram2⟩ := pr2
            simp only [h2] at hstep
            cases h3 : writeParam ram2 dest (v1 * v2) with
            | error e => simp [h3] at hstep
            | ok ram3 =>
              simp only [h3, Except.ok.injEq, StepResult.next.injEq] at hstep
              rw [← hstep]
      | Input dest =>
        simp only [Machine.step, hdec] at hstep
        cases hi : m.inputs with
        | nil => simp [hi] at hstep
        | cons x rest =>
          simp only [hi] at hstep
          cases h3 : writeParam m.ram dest x with
          | error e => simp [h3] at hstep
          | ok ram3 =>
            simp only [h3, Except.ok.injEq, StepResult.next.injEq] at hstep
            rw [← hstep]
      | Output from_ =>
        simp only [Machine.step, hdec] at hstep
        cases h1 : readParam m.ram from_ with
        | error e => simp [h1] at hstep
        | ok pr1 =>
          obtain ⟨v, ram1⟩ := pr1
          simp only [h1, Except.ok.injEq, StepResult.next.injEq] at hstep
          rw [← hstep]
      | JumpIfTrue cond tgt =>
        simp only [Machine.step, hdec] at hstep
        cases h1 : readParam m.ram cond with
        | error e => simp [h1] at hstep
        | ok pr1 =>
          obtain ⟨c, ram1⟩ := pr1
          simp only [h1] at hstep
          by_cases hc : c ≠ 0
          · rw [if_pos hc] at hstep
            cases h2 : readParam ram1 tgt with
            | error e => simp [h2] at hstep
            | ok pr2 =>
              obtain ⟨t, ram2⟩ := pr2
              simp only [h2] at hstep
              by_cases ht : 0 ≤ t
              · rw [if_pos ht] at hstep
                simp only [Except.ok.injEq, StepResult.next.injEq] at hstep
                rw [← hstep]
              · rw [if_neg ht] at hstep
                cases hstep
          · rw [if_neg hc] at hstep
            simp only [Except.ok.injEq, StepResult.next.injEq] at hstep
            rw [← hstep]
      | JumpIfFalse cond tgt =>
        simp only [Machine.step, hdec] at hstep
        cases h1 : readParam m.ram cond with
        | error e => simp [h1] at hstep
        | ok pr1 =>
          obtain ⟨c, ram1⟩ := pr1
          simp only [h1] at hstep
          by_cases hc : c = 0
          · rw [if_pos hc] at hstep
            cases h2 : readParam ram1 tgt with
            | error e => simp [h2] at hstep
            | ok pr2 =>
              obtain ⟨t, ram2⟩ := pr2
              simp only [h2] at hstep
              by_cases ht : 0 ≤ t
              · rw [if_pos ht] at hstep
                simp only [Except.ok.injEq, StepResult.next.injEq] at hstep
                rw [← hstep]
              · rw [if_neg ht] at hstep
                cases hstep
          · rw [if_neg hc] at hstep
            simp only [Except.ok.injEq, StepResult.next.injEq] at hstep
            rw [← hstep]
      | LessThan op1 op2 dest =>
        simp only [Machine.step, hdec] at hstep
        cases h1 : readParam m.ram op1 with
        | error e => simp [h1] at hstep
        | ok pr1 =>
          obtain ⟨v1, ram1⟩ := pr1
          simp only [h1] at hstep
          cases h2 : readParam ram1 op2 with
          | error e => simp [h2] at hstep
          | ok pr2 =>
            obtain ⟨v2, ram2⟩ := pr2
            simp only [h2] at hstep
            cases h3 : writeParam ram2 dest (if v1 < v2 then 1 else 0) with
            | error e => simp [h3] at hstep
            | ok ram3 =>
              simp only [h3, Except.ok.injEq, StepResult.next.injEq] at hstep
              rw [← hstep]
      | Equals op1 op2 dest =>
        simp only [Machine.step, hdec] at hstep
        cases h1 : readParam m.ram op1 with
        | error e => simp [h1] at hstep
        | ok pr1 =>
          obtain ⟨v1, ram1⟩ := pr1
          simp only [h1] at hstep
          cases h2 : readParam ram1 op2 with
          | error e => simp [h2] at hstep
          | ok pr2 =>
            obtain ⟨v2, ram2⟩ := pr2
            simp only [h2] at hstep
            cases h3 : writeParam ram2 dest (if v1 = v2 then 1 else 0) with
            | error e => simp [h3] at hstep
            | ok ram3 =>
              simp only [h3, Except.ok.injEq, StepResult.next.injEq] at hstep
              rw [← hstep]

/-- Witness for `c10_frame`: one `Add` step of `[1101, 2, 3, 5, 99, 0]`
(destination address 5) keeps cell 2 and the relative base intact. -/
theorem c10_witness :
    (Machine.new [1101, 2, 3, 5, 99, 0] []).ram.length ≤
      ({ pc := 4, ram := [1101, 2, 3, 5, 99, 5], relative_base := 0,
         inputs := [], outputs := [] } : Machine).ram.length ∧
    ({ pc := 4, ram := [1101, 2, 3, 5, 99, 5], relative_base := 0,
       inputs := [], outputs := [] } : Machine).ram[2]? =
      (Machine.new [1101, 2, 3, 5, 99, 0] []).ram[2]? ∧
    ({ pc := 4, ram := [1101, 2, 3, 5, 99, 5], relative_base := 0,
       inputs := [], outputs := [] } : Machine).relative_base =
      (Machine.new [1101, 2, 3, 5, 99, 0] []).relative_base := by
  have h := c10_frame (Machine.new [1101, 2, 3, 5, 99, 0] [])
    { pc := 4, ram := [1101, 2, 3, 5, 99, 5], relative_base := 0,
      inputs := [], outputs := [] } 5 rfl
  have hw : (Machine.new [1101, 2, 3, 5, 99, 0] []).writesDest 5 :=
    Or.inl ⟨Parameter.Immediate 2, Parameter.Immediate 3, rfl⟩
  refine ⟨(h.1 hw).1, (h.1 hw).2.1 2 (by decide) (by decide), ?_⟩
  apply h.2
  intro p hp
  have hd : (Machine.new [1101, 2, 3, 5, 99, 0] []).decode =
      Except.ok (Instruction.Add (Parameter.Immediate 2)
        (Parameter.Immediate 3) (Parameter.Indirect 5)) := rfl
  rw [hd] at hp
  exact Instruction.noConfusion (Except.ok.inj hp)

end Intcode

/-- **C4**: for the day-7 example program, chaining five engines in an
open chain — each engine scripted with its phase value followed by the
previous signal, starting from signal `0` — with phase sequence
`[4, 3, 2, 1, 0]` yields `43210`, and `43210` is the maximum chained
result over all permutations of the phases `0..4` (the sequence
`[4, 3, 2, 1, 0]` is one of the 120 permutations, every permutation
runs to completion, and none exceeds `43210`). -/
theorem c4_amplifier_chain :
    Day7.chainSignal Day7.exampleProg 20 [4, 3, 2, 1, 0] 0 =
      Except.ok (some 43210) ∧
    [4, 3, 2, 1, 0] ∈ Day7.perms [0, 1, 2, 3, 4] ∧
    (Day7.chainResults Day7.exampleProg 20 [0, 1, 2, 3, 4]).all
        (fun r =>
          match r with
          | Except.ok (some v) => v ≤ 43210
          | _ => false) = true :=
  ⟨rfl, by decide, by decide⟩
